import Mathlib

/-!
Shallow embedding of `pdf-shrinker` (src/index.js): option validation,
the compression-level → Ghostscript-options mapping, and the subprocess
orchestration of `compressPdf`, with the filesystem and the spawned
engine modelled as oracles passed in as parameters.
-/

namespace PdfShrinker

/-! ### Character and string helpers (models of JS/Node built-ins) -/

/-- Whitespace characters skipped by JS `parseInt` before reading digits
(the common ASCII whitespace set; exotic Unicode space characters that JS
also trims are not modelled, no claim depends on them). -/
def jsWhitespace (c : Char) : Bool :=
  c == ' ' || c == '\t' || c == '\n' || c == '\r' || c == '\x0b' || c == '\x0c'

/-- Numeric value of a decimal digit character. -/
def digitVal (c : Char) : Nat := c.toNat - '0'.toNat

/-- Numeric value of a hexadecimal digit character, `none` otherwise. -/
def hexVal (c : Char) : Option Nat :=
  if c.isDigit then some (c.toNat - '0'.toNat)
  else if 'a' ≤ c ∧ c ≤ 'f' then some (c.toNat - 'a'.toNat + 10)
  else if 'A' ≤ c ∧ c ≤ 'F' then some (c.toNat - 'A'.toNat + 10)
  else none

/-- Model of JS `parseInt(s)` (radix argument omitted, as in the source):
skip leading whitespace, read an optional sign, then either a `0x`/`0X`
hexadecimal literal or a maximal run of decimal digits; `none` models `NaN`. -/
def jsParseInt (s : String) : Option Int :=
  let cs := s.toList.dropWhile jsWhitespace
  let sgncs : Int × List Char :=
    match cs with
    | '-' :: rest => (-1, rest)
    | '+' :: rest => (1, rest)
    | _ => (1, cs)
  let sgn := sgncs.1
  let cs := sgncs.2
  match cs with
  | '0' :: x :: rest =>
    if x = 'x' ∨ x = 'X' then
      let ds := rest.takeWhile (fun c => (hexVal c).isSome)
      if ds = [] then none
      else some (sgn * (ds.foldl (fun a c => a * 16 + (hexVal c).getD 0) 0 : Nat))
    else
      some (sgn * ((cs.takeWhile Char.isDigit).foldl (fun a c => a * 10 + digitVal c) 0 : Nat))
  | _ =>
    let ds := cs.takeWhile Char.isDigit
    if ds = [] then none
    else some (sgn * (ds.foldl (fun a c => a * 10 + digitVal c) 0 : Nat))

/-- Model of JS `String.prototype.toLowerCase` (ASCII range, which is all
the `.pdf` suffix check needs). -/
def lowerStr (s : String) : String := ⟨s.data.map Char.toLower⟩

/-- Model of JS `String.prototype.endsWith`. -/
def endsWithStr (suf s : String) : Bool := suf.toList.isSuffixOf s.toList

/-! ### Model of Node `path.parse` / `path.join` (posix) -/

/-- Split a character list at every occurrence of `c` (the separators are
dropped; adjacent separators yield empty segments), as Node's path code
does with `/`. -/
def splitChar (c : Char) : List Char → List (List Char)
  | [] => [[]]
  | a :: rest =>
    match splitChar c rest with
    | [] => [[]]
    | h :: t => if a = c then [] :: h :: t else (a :: h) :: t

/-- Join segments with the separator `c` (inverse of `splitChar`). -/
def joinSegs (c : Char) : List (List Char) → List Char
  | [] => []
  | [x] => x
  | x :: y :: t => x ++ c :: joinSegs c (y :: t)

/-- The result of Node `path.parse` restricted to the fields the source
uses (`dir`, `name`) plus `ext`. -/
structure PathParts where
  dir : String
  name : String
  ext : String
deriving DecidableEq

/-- Model of posix `path.parse` for paths not ending in `/` (every path
reaching the parse in the source has a `.pdf` suffix, hence does not end
in `/`): `dir` is everything before the last separator (`/` for a path
whose only separator is leading), the basename splits into `name`/`ext`
at its last dot, except that a dot in first position (dotfile) or a `..`
basename yields an empty `ext`. -/
def pathParse (s : String) : PathParts :=
  let cs := s.toList
  let revBase := cs.reverse.takeWhile (fun c => c ≠ '/')
  let restRev := cs.reverse.dropWhile (fun c => c ≠ '/')
  let base := revBase.reverse
  let dir : List Char :=
    match restRev with
    | [] => []
    | _ :: revDir =>
      match revDir.reverse with
      | [] => ['/']
      | d => d
  if base = ['.', '.'] then ⟨⟨dir⟩, ⟨base⟩, ""⟩
  else
    let revExt := base.reverse.takeWhile (fun c => c ≠ '.')
    match base.reverse.dropWhile (fun c => c ≠ '.') with
    | [] => ⟨⟨dir⟩, ⟨base⟩, ""⟩
    | _ :: revName =>
      if revName = [] then ⟨⟨dir⟩, ⟨base⟩, ""⟩
      else ⟨⟨dir⟩, ⟨revName.reverse⟩, ⟨'.' :: revExt.reverse⟩⟩

/-- Normalisation pass of posix `path.normalize` on already-split
segments: drop empty and `.` segments, let `..` cancel a preceding
segment (or stack up at the front of a relative path; absolute paths
drop excess `..`). `st` is the (reversed) stack of kept segments. -/
def normStack (abs : Bool) (st : List (List Char)) : List (List Char) → List (List Char)
  | [] => st.reverse
  | s :: rest =>
    if s = [] ∨ s = ['.'] then normStack abs st rest
    else if s = ['.', '.'] then
      match st with
      | [] => normStack abs (if abs then [] else [s]) rest
      | top :: st' =>
        if top = ['.', '.'] then normStack abs (s :: top :: st') rest
        else normStack abs st' rest
    else normStack abs (s :: st) rest

/-- Model of posix `path.join(a, b)` for two segments: non-empty
arguments are joined with `/` and the result normalised (trailing-slash
preservation is not modelled; the second argument in the source always
ends in `-compressed.pdf`). -/
def pathJoin (a b : String) : String :=
  let parts := [a, b].filter (fun x => x ≠ "")
  if parts = [] then "." else
  let joined := joinSegs '/' (parts.map String.toList)
  let abs := joined.head? = some '/'
  let segs := splitChar '/' joined
  let core := joinSegs '/' (normStack abs [] segs)
  if abs then
    if core = [] then "/" else ⟨'/' :: core⟩
  else
    if core = [] then "." else ⟨core⟩

/-! ### Data model -/

/-- Raw CLI options as produced by the argument parsing layer: `level`
arrives as a string (commander's default is `"3"`), `output` may be
absent. -/
structure Options where
  input : String
  output : Option String
  level : String
  verbose : Bool

/-- The validated request produced by `validateOptions`: the output path
has been defaulted and the level narrowed to an integer. -/
structure ValidatedOptions where
  input : String
  output : String
  level : Int
  verbose : Bool
deriving DecidableEq

/-- Error taxonomy of the tool: each constructor stands for one of the
`throw new Error(...)` / `reject(new Error(...))` sites of the source.
`EngineFailure` carries the child's exit code and accumulated stderr. -/
inductive CError where
  | InputNotFound (path : String)
  | InvalidInputType
  | InvalidLevel
  | EngineNotFound
  | SpawnFailure (message : String)
  | EngineFailure (exitCode : Int) (stderrText : String)
  | OutputMissing
deriving DecidableEq

/-- The default output path `validateOptions` derives when `-o` is
absent: `path.join(inputPath.dir, inputPath.name + "-compressed.pdf")`. -/
def defaultOutput (input : String) : String :=
  let inputPath := pathParse input
  pathJoin inputPath.dir (inputPath.name ++ "-compressed.pdf")

/-- Model of `validateOptions` (src/index.js:29-55). The filesystem is
the oracle `fsExists`. Returns the list of informational notices printed
(`console.log` of the derived output path) alongside the result. Checks
run in source order: existence, `.pdf` suffix, output defaulting, level
parse. -/
def validateOptions (fsExists : String → Bool) (o : Options) :
    List String × Except CError ValidatedOptions :=
  if fsExists o.input = false then
    ([], .error (.InputNotFound o.input))
  else if endsWithStr ".pdf" (lowerStr o.input) = false then
    ([], .error .InvalidInputType)
  else
    let notices : List String :=
      match o.output with
      | some _ => []
      | none => ["No output specified, using: " ++ defaultOutput o.input]
    let output : String :=
      match o.output with
      | some out => out
      | none => defaultOutput o.input
    match jsParseInt o.level with
    | none => (notices, .error .InvalidLevel)
    | some level =>
      if level < 1 ∨ level > 5 then (notices, .error .InvalidLevel)
      else (notices, .ok ⟨o.input, output, level, o.verbose⟩)

/-! ### Ghostscript options table -/

/-- Common options for all compression levels (src/index.js:187-193). -/
def baseOptions : List String :=
  ["-sDEVICE=pdfwrite", "-dNOPAUSE", "-dQUIET", "-dBATCH", "-dSAFER"]

/-- Model of `getGsOptionsForLevel` (src/index.js:185-297); the default
arm returns the level-3 options, as the source's recursive
`getGsOptionsForLevel(3)` fallback does. -/
def getGsOptionsForLevel (level : Int) : List String :=
  match level with
  | 1 =>
    baseOptions ++
      ["-dPDFSETTINGS=/prepress", "-dCompatibilityLevel=1.7",
       "-dColorImageResolution=300", "-dGrayImageResolution=300",
       "-dMonoImageResolution=300", "-dColorImageDownsampleType=/Bicubic",
       "-dGrayImageDownsampleType=/Bicubic", "-dMonoImageDownsampleType=/Bicubic",
       "-dAutoFilterColorImages=false", "-dAutoFilterGrayImages=false",
       "-dColorImageFilter=/DCTEncode", "-dGrayImageFilter=/DCTEncode",
       "-dJPEGQ=95"]
  | 2 =>
    baseOptions ++
      ["-dPDFSETTINGS=/printer", "-dCompatibilityLevel=1.6",
       "-dColorImageResolution=150", "-dGrayImageResolution=150",
       "-dMonoImageResolution=200", "-dColorImageDownsampleType=/Bicubic",
       "-dGrayImageDownsampleType=/Bicubic", "-dMonoImageDownsampleType=/Bicubic",
       "-dAutoFilterColorImages=true", "-dAutoFilterGrayImages=true",
       "-dColorImageFilter=/DCTEncode", "-dGrayImageFilter=/DCTEncode",
       "-dJPEGQ=85"]
  | 3 =>
    baseOptions ++
      ["-dPDFSETTINGS=/ebook", "-dCompatibilityLevel=1.5",
       "-dColorImageResolution=110", "-dGrayImageResolution=110",
       "-dMonoImageResolution=150", "-dColorImageDownsampleType=/Average",
       "-dGrayImageDownsampleType=/Average", "-dMonoImageDownsampleType=/Bicubic",
       "-dAutoFilterColorImages=true", "-dAutoFilterGrayImages=true",
       "-dColorImageFilter=/DCTEncode", "-dGrayImageFilter=/DCTEncode",
       "-dJPEGQ=80"]
  | 4 =>
    baseOptions ++
      ["-dPDFSETTINGS=/ebook", "-dCompatibilityLevel=1.5",
       "-dColorImageResolution=96", "-dGrayImageResolution=96",
       "-dMonoImageResolution=150", "-dColorImageDownsampleType=/Average",
       "-dGrayImageDownsampleType=/Average", "-dMonoImageDownsampleType=/Subsample",
       "-dAutoFilterColorImages=true", "-dAutoFilterGrayImages=true",
       "-dColorImageFilter=/DCTEncode", "-dGrayImageFilter=/DCTEncode",
       "-dJPEGQ=75"]
  | 5 =>
    baseOptions ++
      ["-dPDFSETTINGS=/screen", "-dCompatibilityLevel=1.4",
       "-dColorImageResolution=72", "-dGrayImageResolution=72",
       "-dMonoImageResolution=72", "-dColorImageDownsampleType=/Average",
       "-dGrayImageDownsampleType=/Average", "-dMonoImageDownsampleType=/Subsample",
       "-dAutoFilterColorImages=true", "-dAutoFilterGrayImages=true",
       "-dColorImageFilter=/DCTEncode", "-dGrayImageFilter=/DCTEncode",
       "-dJPEGQ=50", "-dEmbedAllFonts=false", "-dSubsetFonts=true",
       "-dCompressFonts=true", "-dConvertCMYKImagesToRGB=true",
       "-dDetectDuplicateImages=true", "-dOptimize=true"]
  | _ =>
    -- default arm: the source calls getGsOptionsForLevel(3)
    baseOptions ++
      ["-dPDFSETTINGS=/ebook", "-dCompatibilityLevel=1.5",
       "-dColorImageResolution=110", "-dGrayImageResolution=110",
       "-dMonoImageResolution=150", "-dColorImageDownsampleType=/Average",
       "-dGrayImageDownsampleType=/Average", "-dMonoImageDownsampleType=/Bicubic",
       "-dAutoFilterColorImages=true", "-dAutoFilterGrayImages=true",
       "-dColorImageFilter=/DCTEncode", "-dGrayImageFilter=/DCTEncode",
       "-dJPEGQ=80"]

/-- The level-specific part of each profile (the options each `case` arm
of the source appends after `...baseOptions`); this is the spec's
"LevelProfile" notion, to be compared against `getGsOptionsForLevel`. -/
def profileOptions (level : Int) : List String :=
  (getGsOptionsForLevel level).drop baseOptions.length

/-! ### Subprocess orchestration model -/

/-- Terminal outcome of the spawned child process, as delivered to the
source's event handlers: either a `close` event with an exit code and
the accumulated stdout/stderr texts, or an `error` event (spawn
failure) carrying the system error code (e.g. `"ENOENT"`) and message. -/
inductive TermEvent where
  | closed (code : Int) (stdoutData stderrData : String)
  | errored (errCode : String) (message : String)
deriving DecidableEq

/-- Decimal rounding of JS `Number.prototype.toFixed` idealised over the
rationals: round half away from zero at `digits` decimal places. -/
def toFixedQ (digits : Nat) (x : ℚ) : ℚ :=
  if 0 ≤ x then (⌊x * 10 ^ digits + 1 / 2⌋ : ℚ) / 10 ^ digits
  else -((⌊-x * 10 ^ digits + 1 / 2⌋ : ℚ) / 10 ^ digits)

/-- Statistics reported on success (the spec's `CompressionResult`). -/
structure Stats where
  inputSizeBytes : Nat
  outputSizeBytes : Nat
  ratio : ℚ
  spaceSaved : ℚ
deriving DecidableEq

/-- One firing of the `progressUpdater` interval callback
(src/index.js:107-110): `Math.min(progressBar.value + 5, 99)`. -/
def progressTick (v : Nat) : Nat := min (v + 5) 99

/-- Full argument vector handed to `spawn('gs', ...)`
(src/index.js:86-92): level options, then `-sOutputFile=`, then the
input path pushed last. -/
def buildGsArgs (level : Int) (output input : String) : List String :=
  getGsOptionsForLevel level ++ ["-sOutputFile=" ++ output, input]

/-- Observable outcome of one `compressPdf` run: the result or error,
whether a child process spawn was attempted, the argument vector used,
the notices printed by validation, the progress bar's final value and
whether the progress timer was cleared (the latter two are `none` when
no process was spawned, since the bar/timer never reach the child's
event handlers). -/
structure RunReport where
  outcome : Except CError Stats
  spawned : Bool
  gsArgs : Option (List String)
  notices : List String
  finalBarValue : Option Nat
  timerCancelled : Option Bool

/-- Model of `compressPdf` (src/index.js:58-182). Oracles: `fsBefore`
answers the existence checks up to the spawn, `fsAfter` the
`fs.existsSync(output)` check after the child exits, `sizeOf` the
`fs.statSync(...).size` calls, `engine` maps the spawned argument
vector to the terminal event of the child, and `ticks` is the number of
times the progress interval fired before that event. On `close` with
code 0 the bar is set to 100 before the output-existence check, as in
the source. -/
def compressPdf (fsBefore fsAfter : String → Bool) (sizeOf : String → Nat)
    (engine : List String → TermEvent) (ticks : Nat) (o : Options) : RunReport :=
  match validateOptions fsBefore o with
  | (notices, .error e) =>
    ⟨.error e, false, none, notices, none, none⟩
  | (notices, .ok v) =>
    let gsArgs := buildGsArgs v.level v.output v.input
    let inputSizeBytes := sizeOf v.input
    let barBeforeClose := progressTick^[ticks] 0
    match engine gsArgs with
    | .closed code _ stderrData =>
      if code = 0 then
        -- progressBar.update(100) happens before the existence check
        if fsAfter v.output then
          let outputSizeBytes := sizeOf v.output
          let ratio := toFixedQ 2 ((inputSizeBytes : ℚ) / (outputSizeBytes : ℚ))
          let spaceSaved :=
            toFixedQ 1 ((1 - (outputSizeBytes : ℚ) / (inputSizeBytes : ℚ)) * 100)
          ⟨.ok ⟨inputSizeBytes, outputSizeBytes, ratio, spaceSaved⟩,
            true, some gsArgs, notices, some 100, some true⟩
        else
          ⟨.error .OutputMissing, true, some gsArgs, notices, some 100, some true⟩
      else
        ⟨.error (.EngineFailure code stderrData),
          true, some gsArgs, notices, some barBeforeClose, some true⟩
    | .errored errCode message =>
      if errCode = "ENOENT" then
        ⟨.error .EngineNotFound, true, some gsArgs, notices, some barBeforeClose, some true⟩
      else
        ⟨.error (.SpawnFailure message),
          true, some gsArgs, notices, some barBeforeClose, some true⟩

/-! ### Theorems -/

/-- The directives of `getGsOptionsForLevel level` that begin with the
given directive key, used to state that a profile carries exactly the
table's value for that key. -/
def gsDirectives (p : String) (level : Int) : List String :=
  (getGsOptionsForLevel level).filter (fun s => p.toList.isPrefixOf s.toList)

/-- The spec's level-to-directive mapping table, row by row: for each
directive key and level, the exact directives with that key that the
profile must contain (`[]`: the key must not occur at that level; the
level-5-only extra flags are required absent at levels 1-4). -/
def specLevelTable : List (String × Int × List String) :=
  [
    ("-dPDFSETTINGS=", 1, ["-dPDFSETTINGS=/prepress"]),
    ("-dPDFSETTINGS=", 2, ["-dPDFSETTINGS=/printer"]),
    ("-dPDFSETTINGS=", 3, ["-dPDFSETTINGS=/ebook"]),
    ("-dPDFSETTINGS=", 4, ["-dPDFSETTINGS=/ebook"]),
    ("-dPDFSETTINGS=", 5, ["-dPDFSETTINGS=/screen"]),
    ("-dCompatibilityLevel=", 1, ["-dCompatibilityLevel=1.7"]),
    ("-dCompatibilityLevel=", 2, ["-dCompatibilityLevel=1.6"]),
    ("-dCompatibilityLevel=", 3, ["-dCompatibilityLevel=1.5"]),
    ("-dCompatibilityLevel=", 4, ["-dCompatibilityLevel=1.5"]),
    ("-dCompatibilityLevel=", 5, ["-dCompatibilityLevel=1.4"]),
    ("-dColorImageResolution=", 1, ["-dColorImageResolution=300"]),
    ("-dColorImageResolution=", 2, ["-dColorImageResolution=150"]),
    ("-dColorImageResolution=", 3, ["-dColorImageResolution=110"]),
    ("-dColorImageResolution=", 4, ["-dColorImageResolution=96"]),
    ("-dColorImageResolution=", 5, ["-dColorImageResolution=72"]),
    ("-dGrayImageResolution=", 1, ["-dGrayImageResolution=300"]),
    ("-dGrayImageResolution=", 2, ["-dGrayImageResolution=150"]),
    ("-dGrayImageResolution=", 3, ["-dGrayImageResolution=110"]),
    ("-dGrayImageResolution=", 4, ["-dGrayImageResolution=96"]),
    ("-dGrayImageResolution=", 5, ["-dGrayImageResolution=72"]),
    ("-dMonoImageResolution=", 1, ["-dMonoImageResolution=300"]),
    ("-dMonoImageResolution=", 2, ["-dMonoImageResolution=200"]),
    ("-dMonoImageResolution=", 3, ["-dMonoImageResolution=150"]),
    ("-dMonoImageResolution=", 4, ["-dMonoImageResolution=150"]),
    ("-dMonoImageResolution=", 5, ["-dMonoImageResolution=72"]),
    ("-dColorImageDownsampleType=", 1, ["-dColorImageDownsampleType=/Bicubic"]),
    ("-dColorImageDownsampleType=", 2, ["-dColorImageDownsampleType=/Bicubic"]),
    ("-dColorImageDownsampleType=", 3, ["-dColorImageDownsampleType=/Average"]),
    ("-dColorImageDownsampleType=", 4, ["-dColorImageDownsampleType=/Average"]),
    ("-dColorImageDownsampleType=", 5, ["-dColorImageDownsampleType=/Average"]),
    ("-dGrayImageDownsampleType=", 1, ["-dGrayImageDownsampleType=/Bicubic"]),
    ("-dGrayImageDownsampleType=", 2, ["-dGrayImageDownsampleType=/Bicubic"]),
    ("-dGrayImageDownsampleType=", 3, ["-dGrayImageDownsampleType=/Average"]),
    ("-dGrayImageDownsampleType=", 4, ["-dGrayImageDownsampleType=/Average"]),
    ("-dGrayImageDownsampleType=", 5, ["-dGrayImageDownsampleType=/Average"]),
    ("-dMonoImageDownsampleType=", 1, ["-dMonoImageDownsampleType=/Bicubic"]),
    ("-dMonoImageDownsampleType=", 2, ["-dMonoImageDownsampleType=/Bicubic"]),
    ("-dMonoImageDownsampleType=", 3, ["-dMonoImageDownsampleType=/Bicubic"]),
    ("-dMonoImageDownsampleType=", 4, ["-dMonoImageDownsampleType=/Subsample"]),
    ("-dMonoImageDownsampleType=", 5, ["-dMonoImageDownsampleType=/Subsample"]),
    ("-dJPEGQ=", 1, ["-dJPEGQ=95"]),
    ("-dJPEGQ=", 2, ["-dJPEGQ=85"]),
    ("-dJPEGQ=", 3, ["-dJPEGQ=80"]),
    ("-dJPEGQ=", 4, ["-dJPEGQ=75"]),
    ("-dJPEGQ=", 5, ["-dJPEGQ=50"]),
    ("-dEmbedAllFonts=", 1, []),
    ("-dEmbedAllFonts=", 2, []),
    ("-dEmbedAllFonts=", 3, []),
    ("-dEmbedAllFonts=", 4, []),
    ("-dEmbedAllFonts=", 5, ["-dEmbedAllFonts=false"]),
    ("-dSubsetFonts=", 1, []),
    ("-dSubsetFonts=", 2, []),
    ("-dSubsetFonts=", 3, []),
    ("-dSubsetFonts=", 4, []),
    ("-dSubsetFonts=", 5, ["-dSubsetFonts=true"]),
    ("-dCompressFonts=", 1, []),
    ("-dCompressFonts=", 2, []),
    ("-dCompressFonts=", 3, []),
    ("-dCompressFonts=", 4, []),
    ("-dCompressFonts=", 5, ["-dCompressFonts=true"]),
    ("-dConvertCMYKImagesToRGB=", 1, []),
    ("-dConvertCMYKImagesToRGB=", 2, []),
    ("-dConvertCMYKImagesToRGB=", 3, []),
    ("-dConvertCMYKImagesToRGB=", 4, []),
    ("-dConvertCMYKImagesToRGB=", 5, ["-dConvertCMYKImagesToRGB=true"]),
    ("-dDetectDuplicateImages=", 1, []),
    ("-dDetectDuplicateImages=", 2, []),
    ("-dDetectDuplicateImages=", 3, []),
    ("-dDetectDuplicateImages=", 4, []),
    ("-dDetectDuplicateImages=", 5, ["-dDetectDuplicateImages=true"]),
    ("-dOptimize=", 1, []),
    ("-dOptimize=", 2, []),
    ("-dOptimize=", 3, []),
    ("-dOptimize=", 4, []),
    ("-dOptimize=", 5, ["-dOptimize=true"])]

/-- C1: for every level in {1..5}, the parameter list of
`getGsOptionsForLevel` carries exactly the quality preset, compatibility
version, per-channel resolutions, per-channel downsampling algorithms
and JPEG quality factor of the spec's mapping table, and the extra
level-5 flags (font embedding off, subset+compress fonts, CMYK→RGB,
duplicate-image detection, general optimization) appear at level 5 and
at no other level. -/
theorem getGsOptionsForLevel_matches_table :
    ∀ t ∈ specLevelTable, gsDirectives t.1 t.2.1 = t.2.2 := by
  decide

/-- Witness for C1 at the first table row: level 1 carries exactly the
`prepress` quality preset. -/
theorem getGsOptionsForLevel_matches_table_witness :
    gsDirectives "-dPDFSETTINGS=" 1 = ["-dPDFSETTINGS=/prepress"] :=
  getGsOptionsForLevel_matches_table
    ("-dPDFSETTINGS=", 1, ["-dPDFSETTINGS=/prepress"]) (by decide)

/-- C2: for every level in {1..5}, the argument vector handed to the
spawned engine is the shared base configuration, then the level profile,
then the explicit `-sOutputFile=` parameter, and the input path as the
final element; moreover whenever validation succeeds, `compressPdf`
passes exactly this vector to the engine. -/
theorem gsArgs_vector_structure (level : Int) (h1 : 1 ≤ level) (h5 : level ≤ 5)
    (output input : String) :
    buildGsArgs level output input =
      baseOptions ++ profileOptions level ++ ["-sOutputFile=" ++ output] ++ [input] ∧
    (buildGsArgs level output input).getLast? = some input ∧
    (∀ (fsB fsA : String → Bool) (sz : String → Nat)
       (eng : List String → TermEvent) (ticks : Nat) (o : Options)
       (ns : List String) (v : ValidatedOptions),
       validateOptions fsB o = (ns, .ok v) →
       (compressPdf fsB fsA sz eng ticks o).gsArgs =
         some (buildGsArgs v.level v.output v.input)) := by
  refine ⟨?_, ?_, ?_⟩
  · have hb : getGsOptionsForLevel level = baseOptions ++ profileOptions level := by
      interval_cases level <;> rfl
    simp [buildGsArgs, hb]
  · have : (["-sOutputFile=" ++ output, input] : List String).getLast? = some input := rfl
    simp [buildGsArgs, List.getLast?_append, this]
  · intro fsB fsA sz eng ticks o ns v hval
    unfold compressPdf
    rw [hval]
    rcases h : eng (buildGsArgs v.level v.output v.input) with ⟨code, so, sd⟩ | ⟨ec, msg⟩ <;>
      simp only [h] <;> split_ifs <;> rfl

/-- Witness for C2 at level 3 with concrete paths. -/
theorem gsArgs_vector_structure_witness :
    buildGsArgs 3 "out.pdf" "in.pdf" =
      baseOptions ++ profileOptions 3 ++ ["-sOutputFile=" ++ "out.pdf"] ++ ["in.pdf"] ∧
    (buildGsArgs 3 "out.pdf" "in.pdf").getLast? = some "in.pdf" :=
  ⟨(gsArgs_vector_structure 3 (by decide) (by decide) "out.pdf" "in.pdf").1,
   (gsArgs_vector_structure 3 (by decide) (by decide) "out.pdf" "in.pdf").2.1⟩

/-- When validation fails, `compressPdf` reports the validation error,
spawns nothing, and never starts bar or timer. -/
theorem compressPdf_of_validate_error (fsB fsA : String → Bool) (sz : String → Nat)
    (eng : List String → TermEvent) (ticks : Nat) (o : Options)
    (ns : List String) (e : CError)
    (hval : validateOptions fsB o = (ns, .error e)) :
    compressPdf fsB fsA sz eng ticks o = ⟨.error e, false, none, ns, none, none⟩ := by
  unfold compressPdf
  rw [hval]

/-- The level check of `validateOptions` rejects the raw level string
exactly when JS `parseInt` yields `NaN` or a value outside `[1, 5]`. -/
def levelOutOfRange (s : String) : Bool :=
  match jsParseInt s with
  | none => true
  | some n => decide (n < 1) || decide (n > 5)

/-- C3: for an input that passes the file checks, a raw level argument
that does not parse to an integer in `[1, 5]` makes the run fail with
`InvalidLevel` and no subprocess is spawned; conversely validation only
ever succeeds when `parseInt` of the raw level yields the validated
integer level, which lies in `[1, 5]`. -/
theorem level_validation (fsB fsA : String → Bool) (sz : String → Nat)
    (eng : List String → TermEvent) (ticks : Nat) (o : Options)
    (hex : fsB o.input = true)
    (hpdf : endsWithStr ".pdf" (lowerStr o.input) = true) :
    (levelOutOfRange o.level = true →
      (compressPdf fsB fsA sz eng ticks o).outcome = .error .InvalidLevel ∧
      (compressPdf fsB fsA sz eng ticks o).spawned = false) ∧
    (∀ (ns : List String) (v : ValidatedOptions),
      validateOptions fsB o = (ns, .ok v) →
      jsParseInt o.level = some v.level ∧ 1 ≤ v.level ∧ v.level ≤ 5) := by
  constructor
  · intro hrej
    have h2 : (validateOptions fsB o).2 = Except.error CError.InvalidLevel := by
      unfold validateOptions
      unfold levelOutOfRange at hrej
      cases hp : jsParseInt o.level with
      | none => simp [hex, hpdf, hp]
      | some n =>
        rw [hp] at hrej
        simp only [Bool.or_eq_true, decide_eq_true_eq] at hrej
        simp [hex, hpdf, hp, hrej]
    have hval : validateOptions fsB o =
        ((validateOptions fsB o).1, .error .InvalidLevel) := by
      rw [← h2]
    rw [compressPdf_of_validate_error fsB fsA sz eng ticks o _ _ hval]
    exact ⟨rfl, rfl⟩
  · intro ns v hval
    unfold validateOptions at hval
    simp only [hex, hpdf] at hval
    cases hp : jsParseInt o.level with
    | none => rw [hp] at hval; simp at hval
    | some n =>
      rw [hp] at hval
      by_cases hb : n < 1 ∨ n > 5
      · simp [hb] at hval
      · simp [hb] at hval
        have hv : v.level = n := by
          cases hval.2
          rfl
        rw [hv]
        exact ⟨rfl, by omega⟩

/-- Witness for C3: raw level `"abc"` is rejected with `InvalidLevel`
before any spawn. -/
theorem level_validation_witness :
    (compressPdf (fun _ => true) (fun _ => true) (fun _ => 0)
        (fun _ => .closed 0 "" "") 0 ⟨"a.pdf", none, "abc", false⟩).outcome =
      .error .InvalidLevel ∧
    (compressPdf (fun _ => true) (fun _ => true) (fun _ => 0)
        (fun _ => .closed 0 "" "") 0 ⟨"a.pdf", none, "abc", false⟩).spawned = false :=
  (level_validation (fun _ => true) (fun _ => true) (fun _ => 0)
    (fun _ => .closed 0 "" "") 0 ⟨"a.pdf", none, "abc", false⟩
    (by decide) (by decide)).1 (by decide)

/-- C4: a non-existing input path makes the run fail with
`InputNotFound`, and an existing input path without a case-insensitive
`.pdf` suffix makes it fail with `InvalidInputType`; in both cases no
subprocess is spawned. -/
theorem input_validation (fsB fsA : String → Bool) (sz : String → Nat)
    (eng : List String → TermEvent) (ticks : Nat) (o : Options) :
    (fsB o.input = false →
      (compressPdf fsB fsA sz eng ticks o).outcome = .error (.InputNotFound o.input) ∧
      (compressPdf fsB fsA sz eng ticks o).spawned = false) ∧
    (fsB o.input = true → endsWithStr ".pdf" (lowerStr o.input) = false →
      (compressPdf fsB fsA sz eng ticks o).outcome = .error .InvalidInputType ∧
      (compressPdf fsB fsA sz eng ticks o).spawned = false) := by
  constructor
  · intro hnf
    have hval : validateOptions fsB o = ([], .error (.InputNotFound o.input)) := by
      unfold validateOptions
      simp [hnf]
    rw [compressPdf_of_validate_error fsB fsA sz eng ticks o _ _ hval]
    exact ⟨rfl, rfl⟩
  · intro hex hnp
    have hval : validateOptions fsB o = ([], .error .InvalidInputType) := by
      unfold validateOptions
      simp [hex, hnp]
    rw [compressPdf_of_validate_error fsB fsA sz eng ticks o _ _ hval]
    exact ⟨rfl, rfl⟩

/-- Witness for C4: a missing file fails with `InputNotFound`; an
existing non-PDF file fails with `InvalidInputType`; neither spawns. -/
theorem input_validation_witness :
    ((compressPdf (fun _ => false) (fun _ => true) (fun _ => 0)
        (fun _ => .closed 0 "" "") 0 ⟨"missing.pdf", none, "3", false⟩).outcome =
      .error (.InputNotFound "missing.pdf") ∧
     (compressPdf (fun _ => false) (fun _ => true) (fun _ => 0)
        (fun _ => .closed 0 "" "") 0 ⟨"missing.pdf", none, "3", false⟩).spawned = false) ∧
    ((compressPdf (fun _ => true) (fun _ => true) (fun _ => 0)
        (fun _ => .closed 0 "" "") 0 ⟨"doc.txt", none, "3", false⟩).outcome =
      .error .InvalidInputType ∧
     (compressPdf (fun _ => true) (fun _ => true) (fun _ => 0)
        (fun _ => .closed 0 "" "") 0 ⟨"doc.txt", none, "3", false⟩).spawned = false) :=
  ⟨(input_validation (fun _ => false) (fun _ => true) (fun _ => 0)
      (fun _ => .closed 0 "" "") 0 ⟨"missing.pdf", none, "3", false⟩).1 (by decide),
   (input_validation (fun _ => true) (fun _ => true) (fun _ => 0)
      (fun _ => .closed 0 "" "") 0 ⟨"doc.txt", none, "3", false⟩).2 (by decide) (by decide)⟩

/-- C10: `validateOptions` checks existence before the extension: a
non-existing path always yields `InputNotFound` (even if it also lacks
the `.pdf` suffix), and `InvalidInputType` can only be reported for a
path that exists. -/
theorem existence_checked_before_extension (fs : String → Bool) (o : Options) :
    (fs o.input = false →
      (validateOptions fs o).2 = .error (.InputNotFound o.input)) ∧
    ((validateOptions fs o).2 = .error .InvalidInputType → fs o.input = true) := by
  constructor
  · intro hnf
    unfold validateOptions
    simp [hnf]
  · intro hty
    by_cases hnf : fs o.input = false
    · unfold validateOptions at hty
      simp [hnf] at hty
    · simpa using hnf

/-- Witness for C10: a path that neither exists nor has a `.pdf` suffix
is reported as `InputNotFound`, and an `InvalidInputType` report entails
existence. -/
theorem existence_checked_before_extension_witness :
    (validateOptions (fun _ => false) ⟨"doc.txt", none, "3", false⟩).2 =
      .error (.InputNotFound "doc.txt") ∧
    (fun _ => true : String → Bool) "doc.txt" = true :=
  ⟨(existence_checked_before_extension (fun _ => false)
      ⟨"doc.txt", none, "3", false⟩).1 (by decide),
   (existence_checked_before_extension (fun _ => true)
      ⟨"doc.txt", none, "3", false⟩).2 (by rfl)⟩

/-- Branch lemma: validated run whose child exits with code 0. -/
theorem compressPdf_closed_zero (fsB fsA : String → Bool) (sz : String → Nat)
    (eng : List String → TermEvent) (ticks : Nat) (o : Options)
    (ns : List String) (v : ValidatedOptions) (so sd : String)
    (hval : validateOptions fsB o = (ns, .ok v))
    (hev : eng (buildGsArgs v.level v.output v.input) = .closed 0 so sd) :
    compressPdf fsB fsA sz eng ticks o =
      if fsA v.output then
        ⟨.ok ⟨sz v.input, sz v.output,
            toFixedQ 2 ((sz v.input : ℚ) / (sz v.output : ℚ)),
            toFixedQ 1 ((1 - (sz v.output : ℚ) / (sz v.input : ℚ)) * 100)⟩,
          true, some (buildGsArgs v.level v.output v.input), ns, some 100, some true⟩
      else
        ⟨.error .OutputMissing, true, some (buildGsArgs v.level v.output v.input),
          ns, some 100, some true⟩ := by
  unfold compressPdf
  rw [hval]
  dsimp only
  rw [hev]
  simp

/-- Branch lemma: validated run whose child exits with a nonzero code. -/
theorem compressPdf_closed_nonzero (fsB fsA : String → Bool) (sz : String → Nat)
    (eng : List String → TermEvent) (ticks : Nat) (o : Options)
    (ns : List String) (v : ValidatedOptions) (code : Int) (so sd : String)
    (hval : validateOptions fsB o = (ns, .ok v))
    (hcode : code ≠ 0)
    (hev : eng (buildGsArgs v.level v.output v.input) = .closed code so sd) :
    compressPdf fsB fsA sz eng ticks o =
      ⟨.error (.EngineFailure code sd), true,
        some (buildGsArgs v.level v.output v.input), ns,
        some (progressTick^[ticks] 0), some true⟩ := by
  unfold compressPdf
  rw [hval]
  dsimp only
  rw [hev]
  simp [hcode]

/-- Branch lemma: validated run whose child emits a spawn `error` event. -/
theorem compressPdf_errored (fsB fsA : String → Bool) (sz : String → Nat)
    (eng : List String → TermEvent) (ticks : Nat) (o : Options)
    (ns : List String) (v : ValidatedOptions) (ec msg : String)
    (hval : validateOptions fsB o = (ns, .ok v))
    (hev : eng (buildGsArgs v.level v.output v.input) = .errored ec msg) :
    compressPdf fsB fsA sz eng ticks o =
      if ec = "ENOENT" then
        ⟨.error .EngineNotFound, true, some (buildGsArgs v.level v.output v.input),
          ns, some (progressTick^[ticks] 0), some true⟩
      else
        ⟨.error (.SpawnFailure msg), true, some (buildGsArgs v.level v.output v.input),
          ns, some (progressTick^[ticks] 0), some true⟩ := by
  unfold compressPdf
  rw [hval]
  dsimp only
  rw [hev]

/-- Iterating the progress-timer callback from 0 never exceeds 99. -/
theorem progressTick_iter_le (n : Nat) : progressTick^[n] 0 ≤ 99 := by
  cases n with
  | zero => simp
  | succ m =>
    rw [Function.iterate_succ_apply']
    exact min_le_right _ _

/-- C6: in a validated run, a child exit with code 0 but no output file
on disk fails with `OutputMissing`; a success result exists exactly when
the exit code is 0 and the output file exists. -/
theorem output_missing_guard (fsB fsA : String → Bool) (sz : String → Nat)
    (eng : List String → TermEvent) (ticks : Nat) (o : Options)
    (ns : List String) (v : ValidatedOptions)
    (hval : validateOptions fsB o = (ns, .ok v)) :
    (∀ so sd, eng (buildGsArgs v.level v.output v.input) = .closed 0 so sd →
      fsA v.output = false →
      (compressPdf fsB fsA sz eng ticks o).outcome = .error .OutputMissing) ∧
    ((∃ s, (compressPdf fsB fsA sz eng ticks o).outcome = .ok s) ↔
      (∃ so sd, eng (buildGsArgs v.level v.output v.input) = .closed 0 so sd) ∧
        fsA v.output = true) := by
  constructor
  · intro so sd hev hmiss
    rw [compressPdf_closed_zero fsB fsA sz eng ticks o ns v so sd hval hev, hmiss]
    simp
  · constructor
    · rintro ⟨s, hs⟩
      rcases hev : eng (buildGsArgs v.level v.output v.input) with ⟨code, so, sd⟩ | ⟨ec, msg⟩
      · by_cases hc : code = 0
        · subst hc
          refine ⟨⟨so, sd, rfl⟩, ?_⟩
          cases hfa : fsA v.output with
          | true => rfl
          | false =>
            rw [compressPdf_closed_zero fsB fsA sz eng ticks o ns v so sd hval hev,
              hfa] at hs
            simp at hs
        · rw [compressPdf_closed_nonzero fsB fsA sz eng ticks o ns v code so sd
            hval hc hev] at hs
          simp at hs
      · rw [compressPdf_errored fsB fsA sz eng ticks o ns v ec msg hval hev] at hs
        split_ifs at hs
    · rintro ⟨⟨so, sd, hev⟩, hout⟩
      rw [compressPdf_closed_zero fsB fsA sz eng ticks o ns v so sd hval hev, hout]
      exact ⟨_, rfl⟩

/-- Witness for C6: the engine exits 0 but the output file is absent;
the run reports `OutputMissing`. -/
theorem output_missing_guard_witness :
    (compressPdf (fun _ => true) (fun _ => false) (fun _ => 0)
        (fun _ => .closed 0 "" "") 0 ⟨"in.pdf", some "out.pdf", "3", false⟩).outcome =
      .error .OutputMissing :=
  (output_missing_guard (fun _ => true) (fun _ => false) (fun _ => 0)
    (fun _ => .closed 0 "" "") 0 ⟨"in.pdf", some "out.pdf", "3", false⟩
    [] ⟨"in.pdf", "out.pdf", 3, false⟩ rfl).1 "" "" rfl rfl

/-- C7: in a validated run, a spawn `error` with system code `ENOENT`
yields `EngineNotFound`, while a started child exiting with nonzero code
yields `EngineFailure` carrying that exit code and the accumulated
stderr text; the two error conditions are distinct. -/
theorem engine_not_found_vs_failure (fsB fsA : String → Bool) (sz : String → Nat)
    (eng : List String → TermEvent) (ticks : Nat) (o : Options)
    (ns : List String) (v : ValidatedOptions)
    (hval : validateOptions fsB o = (ns, .ok v)) :
    (∀ msg, eng (buildGsArgs v.level v.output v.input) = .errored "ENOENT" msg →
      (compressPdf fsB fsA sz eng ticks o).outcome = .error .EngineNotFound) ∧
    (∀ code so sd, code ≠ 0 →
      eng (buildGsArgs v.level v.output v.input) = .closed code so sd →
      (compressPdf fsB fsA sz eng ticks o).outcome =
        .error (.EngineFailure code sd)) ∧
    (∀ (code : Int) (stderrText : String),
      CError.EngineNotFound ≠ CError.EngineFailure code stderrText) := by
  refine ⟨?_, ?_, fun code st => by simp⟩
  · intro msg hev
    rw [compressPdf_errored fsB fsA sz eng ticks o ns v "ENOENT" msg hval hev]
    simp
  · intro code so sd hc hev
    rw [compressPdf_closed_nonzero fsB fsA sz eng ticks o ns v code so sd hval hc hev]

/-- Witness for C7: an `ENOENT` spawn error yields `EngineNotFound`; an
exit code 1 with stderr text yields `EngineFailure 1`. -/
theorem engine_not_found_vs_failure_witness :
    (compressPdf (fun _ => true) (fun _ => true) (fun _ => 0)
        (fun _ => .errored "ENOENT" "spawn gs ENOENT") 0
        ⟨"in.pdf", some "out.pdf", "3", false⟩).outcome = .error .EngineNotFound ∧
    (compressPdf (fun _ => true) (fun _ => true) (fun _ => 0)
        (fun _ => .closed 1 "" "boom") 0
        ⟨"in.pdf", some "out.pdf", "3", false⟩).outcome =
      .error (.EngineFailure 1 "boom") ∧
    CError.EngineNotFound ≠ CError.EngineFailure 1 "boom" :=
  ⟨(engine_not_found_vs_failure (fun _ => true) (fun _ => true) (fun _ => 0)
      (fun _ => .errored "ENOENT" "spawn gs ENOENT") 0
      ⟨"in.pdf", some "out.pdf", "3", false⟩ [] ⟨"in.pdf", "out.pdf", 3, false⟩
      rfl).1 "spawn gs ENOENT" rfl,
   (engine_not_found_vs_failure (fun _ => true) (fun _ => true) (fun _ => 0)
      (fun _ => .closed 1 "" "boom") 0
      ⟨"in.pdf", some "out.pdf", "3", false⟩ [] ⟨"in.pdf", "out.pdf", 3, false⟩
      rfl).2.1 1 "" "boom" (by norm_num) rfl,
   (engine_not_found_vs_failure (fun _ => true) (fun _ => true) (fun _ => 0)
      (fun _ => .closed 1 "" "boom") 0
      ⟨"in.pdf", some "out.pdf", "3", false⟩ [] ⟨"in.pdf", "out.pdf", 3, false⟩
      rfl).2.2 1 "boom"⟩

/-- C9: every timer firing keeps the bar at or below the ceiling 99,
which is strictly below 100; in a validated run the final bar value is
100 exactly when the child exited with code 0, and the timer is
cancelled on every terminal outcome. -/
theorem progress_ceiling_and_timer (fsB fsA : String → Bool) (sz : String → Nat)
    (eng : List String → TermEvent) (ticks : Nat) (o : Options)
    (ns : List String) (v : ValidatedOptions)
    (hval : validateOptions fsB o = (ns, .ok v)) :
    (∀ u : Nat, progressTick u ≤ 99 ∧ 99 < 100) ∧
    (∀ n : Nat, progressTick^[n] 0 ≤ 99) ∧
    ((compressPdf fsB fsA sz eng ticks o).finalBarValue = some 100 ↔
      ∃ so sd, eng (buildGsArgs v.level v.output v.input) = .closed 0 so sd) ∧
    (compressPdf fsB fsA sz eng ticks o).timerCancelled = some true := by
  have hbar := progressTick_iter_le ticks
  refine ⟨fun u => ⟨min_le_right _ _, by norm_num⟩, progressTick_iter_le, ?_, ?_⟩
  · rcases hev : eng (buildGsArgs v.level v.output v.input) with ⟨code, so, sd⟩ | ⟨ec, msg⟩
    · by_cases hc : code = 0
      · subst hc
        rw [compressPdf_closed_zero fsB fsA sz eng ticks o ns v so sd hval hev]
        refine ⟨fun _ => ⟨so, sd, rfl⟩, fun _ => ?_⟩
        split_ifs <;> rfl
      · rw [compressPdf_closed_nonzero fsB fsA sz eng ticks o ns v code so sd hval hc hev]
        constructor
        · intro h
          simp only [Option.some.injEq] at h
          omega
        · rintro ⟨so', sd', h'⟩
          injection h' with h1 h2 h3
          exact absurd h1 hc
    · rw [compressPdf_errored fsB fsA sz eng ticks o ns v ec msg hval hev]
      constructor
      · intro h
        split_ifs at h <;> simp only [Option.some.injEq] at h <;> omega
      · rintro ⟨so', sd', h'⟩
        exact absurd h' (by simp)
  · rcases hev : eng (buildGsArgs v.level v.output v.input) with ⟨code, so, sd⟩ | ⟨ec, msg⟩
    · by_cases hc : code = 0
      · subst hc
        rw [compressPdf_closed_zero fsB fsA sz eng ticks o ns v so sd hval hev]
        split_ifs <;> rfl
      · rw [compressPdf_closed_nonzero fsB fsA sz eng ticks o ns v code so sd hval hc hev]
    · rw [compressPdf_errored fsB fsA sz eng ticks o ns v ec msg hval hev]
      split_ifs <;> rfl

/-- Witness for C9: with a code-0 exit the final bar value is exactly
100 and the timer is cancelled; with a failing exit the bar stays below
100 while the timer is still cancelled. -/
theorem progress_ceiling_and_timer_witness :
    ((compressPdf (fun _ => true) (fun _ => true) (fun _ => 0)
        (fun _ => .closed 0 "" "") 4
        ⟨"in.pdf", some "out.pdf", "3", false⟩).finalBarValue = some 100 ↔
      ∃ so sd, (fun _ => TermEvent.closed 0 "" "" : List String → TermEvent)
          (buildGsArgs 3 "out.pdf" "in.pdf") = .closed 0 so sd) ∧
    (compressPdf (fun _ => true) (fun _ => true) (fun _ => 0)
        (fun _ => .closed 0 "" "") 4
        ⟨"in.pdf", some "out.pdf", "3", false⟩).timerCancelled = some true :=
  ⟨(progress_ceiling_and_timer (fun _ => true) (fun _ => true) (fun _ => 0)
      (fun _ => .closed 0 "" "") 4 ⟨"in.pdf", some "out.pdf", "3", false⟩
      [] ⟨"in.pdf", "out.pdf", 3, false⟩ rfl).2.2.1,
   (progress_ceiling_and_timer (fun _ => true) (fun _ => true) (fun _ => 0)
      (fun _ => .closed 0 "" "") 4 ⟨"in.pdf", some "out.pdf", "3", false⟩
      [] ⟨"in.pdf", "out.pdf", 3, false⟩ rfl).2.2.2⟩

/-- Rounding an offset-by-half floor stays within half a unit. -/
theorem round_half_abs (y : ℚ) : |(⌊y + 1 / 2⌋ : ℚ) - y| ≤ 1 / 2 := by
  have h1 := Int.floor_le (y + 1 / 2)
  have h2 := Int.lt_floor_add_one (y + 1 / 2)
  rw [abs_le]
  constructor <;> linarith

/-- `toFixedQ d` is within half a unit in the last displayed decimal of
its argument. -/
theorem toFixedQ_abs_sub_le (d : Nat) (x : ℚ) :
    |toFixedQ d x - x| ≤ 1 / (2 * 10 ^ d) := by
  have hpow : (0 : ℚ) < 10 ^ d := by positivity
  have key : ∀ y : ℚ, |(⌊y * 10 ^ d + 1 / 2⌋ : ℚ) / 10 ^ d - y| ≤ 1 / (2 * 10 ^ d) := by
    intro y
    have heq : (⌊y * 10 ^ d + 1 / 2⌋ : ℚ) / 10 ^ d - y
        = ((⌊y * 10 ^ d + 1 / 2⌋ : ℚ) - y * 10 ^ d) / 10 ^ d := by
      field_simp
      ring
    rw [heq, abs_div, abs_of_pos hpow]
    have h := round_half_abs (y * 10 ^ d)
    rw [div_le_div_iff₀ hpow (by positivity : (0 : ℚ) < 2 * 10 ^ d)]
    nlinarith [abs_nonneg ((⌊y * 10 ^ d + 1 / 2⌋ : ℚ) - y * 10 ^ d)]
  unfold toFixedQ
  split_ifs with hx
  · exact key x
  · have h := key (-x)
    rw [show -((⌊-x * 10 ^ d + 1 / 2⌋ : ℚ) / 10 ^ d) - x
        = -((⌊-x * 10 ^ d + 1 / 2⌋ : ℚ) / 10 ^ d - (-x)) by ring]
    rw [abs_neg]
    exact h

/-- `toFixedQ d` produces a value with at most `d` decimal places. -/
theorem toFixedQ_decimals (d : Nat) (x : ℚ) :
    ∃ k : ℤ, toFixedQ d x = (k : ℚ) / 10 ^ d := by
  unfold toFixedQ
  split_ifs with hx
  · exact ⟨⌊x * 10 ^ d + 1 / 2⌋, rfl⟩
  · exact ⟨-⌊-x * 10 ^ d + 1 / 2⌋, by push_cast; ring⟩

/-- C8: on a successful run the reported statistics hold the exact input
and output sizes, the ratio is `inputSize / outputSize` rounded to two
decimal places and the percent saved is `(1 - outputSize/inputSize)*100`
rounded to one decimal place (each a value with that many decimals,
within half a unit in the last place of the exact quotient). -/
theorem success_statistics (fsB fsA : String → Bool) (sz : String → Nat)
    (eng : List String → TermEvent) (ticks : Nat) (o : Options)
    (ns : List String) (v : ValidatedOptions) (so sd : String)
    (hval : validateOptions fsB o = (ns, .ok v))
    (hev : eng (buildGsArgs v.level v.output v.input) = .closed 0 so sd)
    (hout : fsA v.output = true) :
    ∃ s, (compressPdf fsB fsA sz eng ticks o).outcome = .ok s ∧
      s.inputSizeBytes = sz v.input ∧
      s.outputSizeBytes = sz v.output ∧
      s.ratio = toFixedQ 2 ((sz v.input : ℚ) / (sz v.output : ℚ)) ∧
      s.spaceSaved = toFixedQ 1 ((1 - (sz v.output : ℚ) / (sz v.input : ℚ)) * 100) ∧
      |s.ratio - (sz v.input : ℚ) / (sz v.output : ℚ)| ≤ 1 / 200 ∧
      (∃ k : ℤ, s.ratio = (k : ℚ) / 100) ∧
      |s.spaceSaved - (1 - (sz v.output : ℚ) / (sz v.input : ℚ)) * 100| ≤ 1 / 20 ∧
      (∃ k : ℤ, s.spaceSaved = (k : ℚ) / 10) := by
  rw [compressPdf_closed_zero fsB fsA sz eng ticks o ns v so sd hval hev, hout]
  refine ⟨_, rfl, rfl, rfl, rfl, rfl, ?_, ?_, ?_, ?_⟩
  · have h := toFixedQ_abs_sub_le 2 ((sz v.input : ℚ) / (sz v.output : ℚ))
    norm_num at h
    exact h
  · have h := toFixedQ_decimals 2 ((sz v.input : ℚ) / (sz v.output : ℚ))
    norm_num at h
    exact h
  · have h := toFixedQ_abs_sub_le 1 ((1 - (sz v.output : ℚ) / (sz v.input : ℚ)) * 100)
    norm_num at h
    exact h
  · have h := toFixedQ_decimals 1 ((1 - (sz v.output : ℚ) / (sz v.input : ℚ)) * 100)
    norm_num at h
    exact h

/-- Witness for C8: a 1000-byte input compressed to a 400-byte output
reports sizes 1000/400 with ratio 2.5 and 60.0 percent saved. -/
theorem success_statistics_witness :
    ∃ s, (compressPdf (fun _ => true) (fun _ => true)
        (fun p => if p = "in.pdf" then 1000 else 400)
        (fun _ => .closed 0 "" "") 0
        ⟨"in.pdf", some "out.pdf", "3", false⟩).outcome = .ok s ∧
      s.inputSizeBytes = (fun p => if p = "in.pdf" then 1000 else 400) "in.pdf" ∧
      s.outputSizeBytes = (fun p => if p = "in.pdf" then 1000 else 400) "out.pdf" ∧
      s.ratio = toFixedQ 2 ((1000 : ℚ) / (400 : ℚ)) ∧
      s.spaceSaved = toFixedQ 1 ((1 - (400 : ℚ) / (1000 : ℚ)) * 100) ∧
      |s.ratio - (1000 : ℚ) / (400 : ℚ)| ≤ 1 / 200 ∧
      (∃ k : ℤ, s.ratio = (k : ℚ) / 100) ∧
      |s.spaceSaved - (1 - (400 : ℚ) / (1000 : ℚ)) * 100| ≤ 1 / 20 ∧
      (∃ k : ℤ, s.spaceSaved = (k : ℚ) / 10) := by
  have h := success_statistics (fun _ => true) (fun _ => true)
    (fun p => if p = "in.pdf" then 1000 else 400)
    (fun _ => .closed 0 "" "") 0 ⟨"in.pdf", some "out.pdf", "3", false⟩
    [] ⟨"in.pdf", "out.pdf", 3, false⟩ "" "" rfl rfl rfl
  simpa using h

/-! ### List lemmas for the path model -/

theorem takeWhile_eq_self_of_all {α} (p : α → Bool) (xs : List α)
    (h : ∀ a ∈ xs, p a = true) : xs.takeWhile p = xs := by
  induction xs with
  | nil => rfl
  | cons a t ih =>
    rw [List.takeWhile_cons, h a (by simp)]
    simp only [ite_true]
    rw [ih (fun b hb => h b (by simp [hb]))]

theorem dropWhile_eq_nil_of_all {α} (p : α → Bool) (xs : List α)
    (h : ∀ a ∈ xs, p a = true) : xs.dropWhile p = [] := by
  induction xs with
  | nil => rfl
  | cons a t ih =>
    rw [List.dropWhile_cons, h a (by simp)]
    simp only [ite_true]
    exact ih (fun b hb => h b (by simp [hb]))

theorem takeWhile_append_of_all {α} (p : α → Bool) (xs ys : List α)
    (h : ∀ a ∈ xs, p a = true) :
    (xs ++ ys).takeWhile p = xs ++ ys.takeWhile p := by
  induction xs with
  | nil => rfl
  | cons a t ih =>
    rw [List.cons_append, List.takeWhile_cons, h a (by simp)]
    simp only [ite_true]
    rw [ih (fun b hb => h b (by simp [hb]))]
    rfl

theorem dropWhile_append_of_all {α} (p : α → Bool) (xs ys : List α)
    (h : ∀ a ∈ xs, p a = true) :
    (xs ++ ys).dropWhile p = ys.dropWhile p := by
  induction xs with
  | nil => rfl
  | cons a t ih =>
    rw [List.cons_append, List.dropWhile_cons, h a (by simp)]
    simp only [ite_true]
    exact ih (fun b hb => h b (by simp [hb]))

theorem splitChar_ne_nil (c : Char) (cs : List Char) : splitChar c cs ≠ [] := by
  cases cs with
  | nil => simp [splitChar]
  | cons a t =>
    simp only [splitChar]
    cases splitChar c t with
    | nil => simp
    | cons h t' => split_ifs <;> simp

theorem splitChar_of_not_mem (c : Char) (cs : List Char) (h : c ∉ cs) :
    splitChar c cs = [cs] := by
  induction cs with
  | nil => rfl
  | cons a t ih =>
    have ha : ¬a = c := by
      rintro rfl
      exact h (by simp)
    have ht : c ∉ t := fun hm => h (by simp [hm])
    simp only [splitChar, ih ht]
    simp [ha]

theorem splitChar_cons_self (c : Char) (t : List Char) :
    splitChar c (c :: t) = [] :: splitChar c t := by
  simp only [splitChar]
  cases hrt : splitChar c t with
  | nil => exact absurd hrt (splitChar_ne_nil c t)
  | cons h t' => simp

theorem splitChar_append_sep (c : Char) (xs ys : List Char) :
    splitChar c (xs ++ c :: ys) = splitChar c xs ++ splitChar c ys := by
  induction xs with
  | nil =>
    rw [List.nil_append, splitChar_cons_self]
    rfl
  | cons a t ih =>
    rw [List.cons_append]
    simp only [splitChar, ih]
    cases hrt : splitChar c t with
    | nil => exact absurd hrt (splitChar_ne_nil c t)
    | cons h t' => by_cases hac : a = c <;> simp [hac]

theorem joinSegs_splitChar (c : Char) (cs : List Char) :
    joinSegs c (splitChar c cs) = cs := by
  induction cs with
  | nil => rfl
  | cons a t ih =>
    simp only [splitChar]
    cases hrt : splitChar c t with
    | nil => exact absurd hrt (splitChar_ne_nil c t)
    | cons h t' =>
      rw [hrt] at ih
      by_cases hac : a = c
      · subst hac
        simp only [if_pos rfl, joinSegs]
        cases t' with
        | nil => simpa [joinSegs] using ih
        | cons z t'' => simpa [joinSegs] using ih
      · simp only [if_neg hac]
        cases t' with
        | nil =>
          simp only [joinSegs] at ih ⊢
          rw [ih]
        | cons z t'' =>
          simp only [joinSegs] at ih ⊢
          rw [List.cons_append, ih]

theorem joinSegs_append_singleton (c : Char) (ss : List (List Char)) (y : List Char)
    (h : ss ≠ []) : joinSegs c (ss ++ [y]) = joinSegs c ss ++ c :: y := by
  induction ss with
  | nil => exact absurd rfl h
  | cons x t ih =>
    cases t with
    | nil => simp [joinSegs]
    | cons z t' =>
      have ih' := ih (by simp)
      rw [List.cons_append] at ih'
      rw [List.cons_append]
      simp only [joinSegs, List.append_eq]
      rw [ih', List.append_assoc]
      rfl

theorem normStack_clean (abs : Bool) (st : List (List Char)) (segs : List (List Char))
    (h : ∀ s ∈ segs, s ≠ [] ∧ s ≠ ['.'] ∧ s ≠ ['.', '.']) :
    normStack abs st segs = st.reverse ++ segs := by
  induction segs generalizing st with
  | nil => simp [normStack]
  | cons s rest ih =>
    obtain ⟨h1, h2, h3⟩ := h s (by simp)
    simp only [normStack]
    rw [if_neg (by simp [h1, h2]), if_neg h3,
      ih (s :: st) (fun x hx => h x (by simp [hx]))]
    simp

/-- `path.parse` of `<stem>.<ext-tail>` (no directory component): empty
`dir`, `name` is the stem, `ext` is the dot plus tail. -/
theorem pathParse_no_dir (stem etail : List Char) (hstem : stem ≠ [])
    (hs1 : '/' ∉ stem) (hs2 : '.' ∉ stem)
    (he1 : '.' ∉ etail) (he2 : '/' ∉ etail) :
    pathParse ⟨stem ++ '.' :: etail⟩ = ⟨"", ⟨stem⟩, ⟨'.' :: etail⟩⟩ := by
  obtain ⟨s0, stem', rfl⟩ := List.exists_cons_of_ne_nil hstem
  have hrev : ((s0 :: stem') ++ '.' :: etail).reverse
      = etail.reverse ++ '.' :: (s0 :: stem').reverse := by
    simp
  have h1 : (((s0 :: stem') ++ '.' :: etail).reverse).takeWhile
      (fun c => c ≠ '/') = ((s0 :: stem') ++ '.' :: etail).reverse := by
    apply takeWhile_eq_self_of_all
    intro a ha
    simp only [List.mem_reverse, List.mem_append, List.mem_cons] at ha
    simp only [decide_eq_true_eq]
    rcases ha with h | h | h
    · rintro rfl; exact hs1 (List.mem_cons.mpr h)
    · subst h; decide
    · rintro rfl; exact he2 h
  have h2 : (((s0 :: stem') ++ '.' :: etail).reverse).dropWhile
      (fun c => c ≠ '/') = [] := by
    apply dropWhile_eq_nil_of_all
    intro a ha
    simp only [List.mem_reverse, List.mem_append, List.mem_cons] at ha
    simp only [decide_eq_true_eq]
    rcases ha with h | h | h
    · rintro rfl; exact hs1 (List.mem_cons.mpr h)
    · subst h; decide
    · rintro rfl; exact he2 h
  have hne : (s0 :: stem') ++ '.' :: etail ≠ ['.', '.'] := by
    intro h
    have : s0 = '.' := by
      have := congrArg (fun l => l.head?) h
      simpa using this
    exact hs2 (by simp [this])
  have h3 : (((s0 :: stem') ++ '.' :: etail).reverse).takeWhile
      (fun c => c ≠ '.') = etail.reverse := by
    rw [hrev]
    rw [takeWhile_append_of_all _ _ _ (by
      intro a ha
      simp only [List.mem_reverse] at ha
      simp only [decide_eq_true_eq]
      rintro rfl
      exact he1 ha)]
    simp [List.takeWhile_cons]
  have h4 : (((s0 :: stem') ++ '.' :: etail).reverse).dropWhile
      (fun c => c ≠ '.') = '.' :: (s0 :: stem').reverse := by
    rw [hrev]
    rw [dropWhile_append_of_all _ _ _ (by
      intro a ha
      simp only [List.mem_reverse] at ha
      simp only [decide_eq_true_eq]
      rintro rfl
      exact he1 ha)]
    simp [List.dropWhile_cons]
  simp only [pathParse, String.toList, h1, h2, List.reverse_reverse, hne, h3, h4]
  simp

/-- `path.parse` of `<dir>/<stem>.<ext-tail>` (non-empty directory
part): `dir` is everything before the last separator, `name` the stem,
`ext` the dot plus tail. -/
theorem pathParse_with_dir (dl stem etail : List Char) (hdl : dl ≠ [])
    (hstem : stem ≠ []) (hs1 : '/' ∉ stem) (hs2 : '.' ∉ stem)
    (he1 : '.' ∉ etail) (he2 : '/' ∉ etail) :
    pathParse ⟨dl ++ '/' :: (stem ++ '.' :: etail)⟩ =
      ⟨⟨dl⟩, ⟨stem⟩, ⟨'.' :: etail⟩⟩ := by
  obtain ⟨s0, stem', rfl⟩ := List.exists_cons_of_ne_nil hstem
  obtain ⟨d0, dl', rfl⟩ := List.exists_cons_of_ne_nil hdl
  have hall : ∀ a ∈ (((s0 :: stem') ++ '.' :: etail).reverse),
      (fun c => decide (c ≠ '/')) a = true := by
    intro a ha
    simp only [List.mem_reverse, List.mem_append, List.mem_cons] at ha
    simp only [decide_eq_true_eq]
    rcases ha with h | h | h
    · rintro rfl; exact hs1 (List.mem_cons.mpr h)
    · subst h; decide
    · rintro rfl; exact he2 h
  have hrevfull : ((d0 :: dl') ++ '/' :: ((s0 :: stem') ++ '.' :: etail)).reverse
      = ((s0 :: stem') ++ '.' :: etail).reverse ++ '/' :: (d0 :: dl').reverse := by
    simp
  have h1 : (((d0 :: dl') ++ '/' :: ((s0 :: stem') ++ '.' :: etail)).reverse).takeWhile
      (fun c => c ≠ '/') = ((s0 :: stem') ++ '.' :: etail).reverse := by
    rw [hrevfull, takeWhile_append_of_all _ _ _ hall]
    simp [List.takeWhile_cons]
  have h2 : (((d0 :: dl') ++ '/' :: ((s0 :: stem') ++ '.' :: etail)).reverse).dropWhile
      (fun c => c ≠ '/') = '/' :: (d0 :: dl').reverse := by
    rw [hrevfull, dropWhile_append_of_all _ _ _ hall]
    simp [List.dropWhile_cons]
  have hne : (s0 :: stem') ++ '.' :: etail ≠ ['.', '.'] := by
    intro h
    have : s0 = '.' := by
      have := congrArg (fun l => l.head?) h
      simpa using this
    exact hs2 (by simp [this])
  have h3 : (((s0 :: stem') ++ '.' :: etail).reverse).takeWhile
      (fun c => c ≠ '.') = etail.reverse := by
    rw [show ((s0 :: stem') ++ '.' :: etail).reverse
        = etail.reverse ++ '.' :: (s0 :: stem').reverse by simp]
    rw [takeWhile_append_of_all _ _ _ (by
      intro a ha
      simp only [List.mem_reverse] at ha
      simp only [decide_eq_true_eq]
      rintro rfl
      exact he1 ha)]
    simp [List.takeWhile_cons]
  have h4 : (((s0 :: stem') ++ '.' :: etail).reverse).dropWhile
      (fun c => c ≠ '.') = '.' :: (s0 :: stem').reverse := by
    rw [show ((s0 :: stem') ++ '.' :: etail).reverse
        = etail.reverse ++ '.' :: (s0 :: stem').reverse by simp]
    rw [dropWhile_append_of_all _ _ _ (by
      intro a ha
      simp only [List.mem_reverse] at ha
      simp only [decide_eq_true_eq]
      rintro rfl
      exact he1 ha)]
    simp [List.dropWhile_cons]
  simp only [pathParse, String.toList, h1, h2, List.reverse_reverse, hne, h3, h4]
  simp

/-- `path.join("", f)` returns `f` for a plain (slash-free, non-dot)
file name. -/
theorem pathJoin_empty_dir (f : List Char) (hne : f ≠ [])
    (hhead : f.head? ≠ some '/') (hnosl : '/' ∉ f)
    (hdot : f ≠ ['.']) (hdd : f ≠ ['.', '.']) :
    pathJoin "" ⟨f⟩ = ⟨f⟩ := by
  have hfstr : (⟨f⟩ : String) ≠ "" := by
    intro h
    exact hne (congrArg String.data h)
  have hparts : ([("" : String), ⟨f⟩].filter (fun x => x ≠ "")) = [⟨f⟩] := by
    simp [hfstr]
  have hclean : ∀ s ∈ [f], s ≠ [] ∧ s ≠ ['.'] ∧ s ≠ ['.', '.'] := by
    rintro s hs
    simp only [List.mem_singleton] at hs
    subst hs
    exact ⟨hne, hdot, hdd⟩
  simp only [pathJoin, hparts]
  rw [if_neg (by simp [hfstr])]
  simp only [List.map, String.toList, joinSegs]
  rw [splitChar_of_not_mem '/' f hnosl, normStack_clean _ _ _ hclean]
  simp only [List.reverse_nil, List.nil_append, joinSegs]
  rw [if_neg hhead, if_neg hne]

/-- `path.join(d, f)` returns `d ++ "/" ++ f` when `d` is a non-empty
relative directory whose segments are plain names and `f` a plain
file name. -/
theorem pathJoin_dir (dl f : List Char) (hdl : dl ≠ [])
    (hsegs : ∀ s ∈ splitChar '/' dl, s ≠ [] ∧ s ≠ ['.'] ∧ s ≠ ['.', '.'])
    (hf : f ≠ []) (hfs : '/' ∉ f) (hfd : f ≠ ['.']) (hfdd : f ≠ ['.', '.']) :
    pathJoin ⟨dl⟩ ⟨f⟩ = ⟨dl ++ '/' :: f⟩ := by
  obtain ⟨d0, dl', rfl⟩ := List.exists_cons_of_ne_nil hdl
  have hd0 : d0 ≠ '/' := by
    rintro rfl
    have : ([] : List Char) ∈ splitChar '/' ('/' :: dl') := by
      rw [splitChar_cons_self]
      simp
    exact (hsegs [] this).1 rfl
  have hdstr : (⟨d0 :: dl'⟩ : String) ≠ "" := by
    intro h
    exact List.cons_ne_nil d0 dl' (congrArg String.data h)
  have hfstr : (⟨f⟩ : String) ≠ "" := by
    intro h
    exact hf (congrArg String.data h)
  have hparts : ([(⟨d0 :: dl'⟩ : String), ⟨f⟩].filter (fun x => x ≠ "")) =
      [⟨d0 :: dl'⟩, ⟨f⟩] := by
    simp [hdstr, hfstr]
  have hsplit : splitChar '/' ((d0 :: dl') ++ '/' :: f) =
      splitChar '/' (d0 :: dl') ++ [f] := by
    rw [splitChar_append_sep, splitChar_of_not_mem '/' f hfs]
  have hclean : ∀ s ∈ splitChar '/' (d0 :: dl') ++ [f],
      s ≠ [] ∧ s ≠ ['.'] ∧ s ≠ ['.', '.'] := by
    rintro s hs
    rcases List.mem_append.mp hs with h | h
    · exact hsegs s h
    · simp only [List.mem_singleton] at h
      subst h
      exact ⟨hf, hfd, hfdd⟩
  have hcore : joinSegs '/' (splitChar '/' (d0 :: dl') ++ [f]) =
      (d0 :: dl') ++ '/' :: f := by
    rw [joinSegs_append_singleton _ _ _ (splitChar_ne_nil '/' (d0 :: dl')),
      joinSegs_splitChar]
  simp only [pathJoin, hparts]
  rw [if_neg (by simp [hdstr])]
  simp only [List.map, String.toList, joinSegs]
  rw [hsplit, normStack_clean _ _ _ hclean]
  simp only [List.reverse_nil, List.nil_append]
  rw [hcore]
  rw [if_neg (by simp [hd0] : ¬((d0 :: dl') ++ '/' :: f).head? = some '/')]
  rw [if_neg (by simp)]

/-- Derived default output for `<stem>.<ext>` without a directory:
`<stem>-compressed.pdf`. -/
theorem defaultOutput_no_dir (stem etail : List Char) (hstem : stem ≠ [])
    (hs1 : '/' ∉ stem) (hs2 : '.' ∉ stem)
    (he1 : '.' ∉ etail) (he2 : '/' ∉ etail) :
    defaultOutput ⟨stem ++ '.' :: etail⟩ =
      ⟨stem ++ ("-compressed.pdf").data⟩ := by
  obtain ⟨s0, stem', rfl⟩ := List.exists_cons_of_ne_nil hstem
  unfold defaultOutput
  rw [pathParse_no_dir (s0 :: stem') etail (by simp) hs1 hs2 he1 he2]
  have hcat : (⟨s0 :: stem'⟩ : String) ++ "-compressed.pdf"
      = ⟨(s0 :: stem') ++ ("-compressed.pdf").data⟩ := rfl
  show pathJoin "" (⟨s0 :: stem'⟩ ++ "-compressed.pdf") = _
  rw [hcat]
  apply pathJoin_empty_dir
  · simp
  · intro h
    simp only [List.cons_append, List.head?_cons, Option.some.injEq] at h
    subst h
    exact hs1 (by simp)
  · intro hm
    rcases List.mem_append.mp hm with h | h
    · exact hs1 h
    · revert h
      decide
  · intro h
    have := congrArg List.length h
    simp at this
  · intro h
    have := congrArg List.length h
    simp at this

/-- Derived default output for `<dir>/<stem>.<ext>`:
`<dir>/<stem>-compressed.pdf`. -/
theorem defaultOutput_with_dir (dl stem etail : List Char) (hdl : dl ≠ [])
    (hsegs : ∀ s ∈ splitChar '/' dl, s ≠ [] ∧ s ≠ ['.'] ∧ s ≠ ['.', '.'])
    (hstem : stem ≠ []) (hs1 : '/' ∉ stem) (hs2 : '.' ∉ stem)
    (he1 : '.' ∉ etail) (he2 : '/' ∉ etail) :
    defaultOutput ⟨dl ++ '/' :: (stem ++ '.' :: etail)⟩ =
      ⟨dl ++ '/' :: (stem ++ ("-compressed.pdf").data)⟩ := by
  obtain ⟨s0, stem', rfl⟩ := List.exists_cons_of_ne_nil hstem
  unfold defaultOutput
  rw [pathParse_with_dir dl (s0 :: stem') etail hdl (by simp) hs1 hs2 he1 he2]
  have hcat : (⟨s0 :: stem'⟩ : String) ++ "-compressed.pdf"
      = ⟨(s0 :: stem') ++ ("-compressed.pdf").data⟩ := rfl
  show pathJoin ⟨dl⟩ (⟨s0 :: stem'⟩ ++ "-compressed.pdf") = _
  rw [hcat]
  apply pathJoin_dir dl _ hdl hsegs
  · simp
  · intro hm
    rcases List.mem_append.mp hm with h | h
    · exact hs1 h
    · revert h
      decide
  · intro h
    have := congrArg List.length h
    simp at this
  · intro h
    have := congrArg List.length h
    simp at this

/-- A lowered path built from a prefix and an extension lowering to
`.pdf` passes the suffix check. -/
theorem endsWith_pdf_of_ext (pre ext : List Char)
    (hext : lowerStr ⟨ext⟩ = ".pdf") :
    endsWithStr ".pdf" (lowerStr ⟨pre ++ ext⟩) = true := by
  have hext' : ext.map Char.toLower = (".pdf").data := congrArg String.data hext
  unfold endsWithStr lowerStr
  simp only [String.toList]
  show (".pdf").data.isSuffixOf ((pre ++ ext).map Char.toLower) = true
  rw [List.map_append, hext', List.isSuffixOf_iff_suffix]
  exact List.suffix_append _ _

/-- When validation passes the file checks and no output is given, the
informational notice names the derived output path. -/
theorem validateOptions_notice (fs : String → Bool) (o : Options)
    (hfs : fs o.input = true)
    (hsuf : endsWithStr ".pdf" (lowerStr o.input) = true)
    (hno : o.output = none) :
    (validateOptions fs o).1 =
      ["No output specified, using: " ++ defaultOutput o.input] := by
  unfold validateOptions
  simp only [hfs, hsuf, hno]
  cases hp : jsParseInt o.level with
  | none => simp [hp]
  | some n =>
    simp [hp]
    split_ifs <;> rfl

/-- When validation succeeds with no output given, the validated output
is the derived default. -/
theorem validateOptions_ok_output (fs : String → Bool) (o : Options)
    (ns : List String) (vv : ValidatedOptions) (hno : o.output = none)
    (hval : validateOptions fs o = (ns, .ok vv)) :
    vv.output = defaultOutput o.input := by
  unfold validateOptions at hval
  by_cases hfs : fs o.input = false
  · simp [hfs] at hval
  · simp only [Bool.not_eq_false] at hfs
    by_cases hsuf : endsWithStr ".pdf" (lowerStr o.input) = false
    · simp [hfs, hsuf] at hval
    · simp only [Bool.not_eq_false] at hsuf
      simp only [hfs, hsuf, hno] at hval
      cases hp : jsParseInt o.level with
      | none => rw [hp] at hval; simp at hval
      | some n =>
        rw [hp] at hval
        by_cases hb : n < 1 ∨ n > 5
        · simp [hb] at hval
        · simp [hb] at hval
          obtain ⟨h1, h2⟩ := hval
          rw [← h2]

/-- C5: when no output path is given, the derived output path equals
`<input-directory>/<input-basename>-compressed.pdf` for input shapes
with or without a directory component and for any extension that lowers
to `.pdf` (so also uppercase `.PDF`), and the informational notice names
that derived path; when validation succeeds the validated request
carries it as the output. -/
theorem default_output_derivation (fs : String → Bool) (lvl : String) (vb : Bool) :
    (∀ stem etail : List Char,
      stem ≠ [] → '/' ∉ stem → '.' ∉ stem → '.' ∉ etail → '/' ∉ etail →
      lowerStr ⟨'.' :: etail⟩ = ".pdf" →
      fs ⟨stem ++ '.' :: etail⟩ = true →
      defaultOutput ⟨stem ++ '.' :: etail⟩ = (⟨stem⟩ : String) ++ "-compressed.pdf" ∧
      (validateOptions fs ⟨⟨stem ++ '.' :: etail⟩, none, lvl, vb⟩).1 =
        ["No output specified, using: " ++ ((⟨stem⟩ : String) ++ "-compressed.pdf")] ∧
      ∀ (ns : List String) (vv : ValidatedOptions),
        validateOptions fs ⟨⟨stem ++ '.' :: etail⟩, none, lvl, vb⟩ = (ns, .ok vv) →
        vv.output = (⟨stem⟩ : String) ++ "-compressed.pdf") ∧
    (∀ dl stem etail : List Char,
      dl ≠ [] → (∀ s ∈ splitChar '/' dl, s ≠ [] ∧ s ≠ ['.'] ∧ s ≠ ['.', '.']) →
      stem ≠ [] → '/' ∉ stem → '.' ∉ stem → '.' ∉ etail → '/' ∉ etail →
      lowerStr ⟨'.' :: etail⟩ = ".pdf" →
      fs ⟨dl ++ '/' :: (stem ++ '.' :: etail)⟩ = true →
      defaultOutput ⟨dl ++ '/' :: (stem ++ '.' :: etail)⟩ =
        (⟨dl⟩ : String) ++ "/" ++ ⟨stem⟩ ++ "-compressed.pdf" ∧
      (validateOptions fs ⟨⟨dl ++ '/' :: (stem ++ '.' :: etail)⟩, none, lvl, vb⟩).1 =
        ["No output specified, using: " ++
          ((⟨dl⟩ : String) ++ "/" ++ ⟨stem⟩ ++ "-compressed.pdf")] ∧
      ∀ (ns : List String) (vv : ValidatedOptions),
        validateOptions fs ⟨⟨dl ++ '/' :: (stem ++ '.' :: etail)⟩, none, lvl, vb⟩ =
          (ns, .ok vv) →
        vv.output = (⟨dl⟩ : String) ++ "/" ++ ⟨stem⟩ ++ "-compressed.pdf") := by
  constructor
  · intro stem etail h1 h2 h3 h4 h5 hlow hfs
    have hsuf : endsWithStr ".pdf" (lowerStr ⟨stem ++ '.' :: etail⟩) = true :=
      endsWith_pdf_of_ext stem ('.' :: etail) hlow
    have hderS : defaultOutput ⟨stem ++ '.' :: etail⟩ =
        (⟨stem⟩ : String) ++ "-compressed.pdf" :=
      defaultOutput_no_dir stem etail h1 h2 h3 h4 h5
    refine ⟨hderS, ?_, ?_⟩
    · rw [validateOptions_notice fs ⟨⟨stem ++ '.' :: etail⟩, none, lvl, vb⟩ hfs hsuf rfl,
        hderS]
    · intro ns vv hval
      rw [validateOptions_ok_output fs _ ns vv rfl hval, hderS]
  · intro dl stem etail hdl hsegs h1 h2 h3 h4 h5 hlow hfs
    have hsuf : endsWithStr ".pdf" (lowerStr ⟨dl ++ '/' :: (stem ++ '.' :: etail)⟩) =
        true := by
      have := endsWith_pdf_of_ext (dl ++ '/' :: stem) ('.' :: etail) hlow
      rw [show (dl ++ '/' :: stem) ++ '.' :: etail = dl ++ '/' :: (stem ++ '.' :: etail)
        by simp] at this
      exact this
    have hderS : defaultOutput ⟨dl ++ '/' :: (stem ++ '.' :: etail)⟩ =
        (⟨dl⟩ : String) ++ "/" ++ ⟨stem⟩ ++ "-compressed.pdf" := by
      rw [defaultOutput_with_dir dl stem etail hdl hsegs h1 h2 h3 h4 h5]
      show String.mk (dl ++ '/' :: (stem ++ ("-compressed.pdf").data)) =
        String.mk (((dl ++ ['/']) ++ stem) ++ ("-compressed.pdf").data)
      exact congrArg String.mk (by simp)
    refine ⟨hderS, ?_, ?_⟩
    · rw [validateOptions_notice fs
        ⟨⟨dl ++ '/' :: (stem ++ '.' :: etail)⟩, none, lvl, vb⟩ hfs hsuf rfl, hderS]
    · intro ns vv hval
      rw [validateOptions_ok_output fs _ ns vv rfl hval, hderS]

/-- Witness for C5: `report.pdf` derives `report-compressed.pdf`;
`docs/report.PDF` derives `docs/report-compressed.pdf`; the notice names
the derived path. -/
theorem default_output_derivation_witness :
    (defaultOutput ⟨("report").data ++ '.' :: ("pdf").data⟩ =
      (⟨("report").data⟩ : String) ++ "-compressed.pdf") ∧
    (defaultOutput ⟨("docs").data ++ '/' :: (("report").data ++ '.' :: ("PDF").data)⟩ =
      (⟨("docs").data⟩ : String) ++ "/" ++ ⟨("report").data⟩ ++ "-compressed.pdf") ∧
    ((validateOptions (fun _ => true)
        ⟨⟨("report").data ++ '.' :: ("pdf").data⟩, none, "3", false⟩).1 =
      ["No output specified, using: " ++
        ((⟨("report").data⟩ : String) ++ "-compressed.pdf")]) :=
  ⟨((default_output_derivation (fun _ => true) "3" false).1 ("report").data ("pdf").data
      (by decide) (by decide) (by decide) (by decide) (by decide) (by decide) rfl).1,
   ((default_output_derivation (fun _ => true) "3" false).2 ("docs").data ("report").data
      ("PDF").data (by decide) (by decide) (by decide) (by decide) (by decide)
      (by decide) (by decide) (by decide) rfl).1,
   ((default_output_derivation (fun _ => true) "3" false).1 ("report").data ("pdf").data
      (by decide) (by decide) (by decide) (by decide) (by decide) (by decide) rfl).2.1⟩

end PdfShrinker
